import Mathlib

/-!
Verification of the StorySky phase-2 backend (`backend/server.js`).

The server keeps three in-memory collections (`stories`, `users`, `comments`),
mirrors them to a JSON document `data.json` on every mutation (`saveDB`), and
keeps a separate newline-delimited activity log `userActivity.json` used by the
genre-based recommender.  This file shallowly embeds the data model, the route
handlers, and the persistence layer, and proves or refutes the specification's
claims about them.

Conventions of the embedding:
* JavaScript falsy checks on required string fields (`!title`) are modelled by
  `present : Option String → Bool` (absent or empty string is falsy).
* Generated values (`uuidv4()`, `new Date().toISOString()`) are explicit
  parameters (`newId`, `now`) of the operations that create them.
* `likes` is an `Int`: the server performs no validation on patched values.
* The persisted document and the activity log are part of an explicit
  `SysState`; a `flush` overwrites the document with the serialized state.
-/

namespace StorySky

/-- A story record as stored in the `stories` collection. -/
structure Story where
  id : String
  title : String
  body : String
  authorId : String
  genre : String
  likes : Int
  createdAt : String
deriving Repr, DecidableEq

/-- A user record.  JavaScript objects may omit `email` or `avatarUrl`
(the seed user has no `email`; created users have no `avatarUrl`); missing
fields are modelled as the empty string. -/
structure User where
  id : String
  name : String
  email : String
  bio : String
  avatarUrl : String
deriving Repr, DecidableEq

/-- A comment record as stored in the `comments` collection. -/
structure Comment where
  id : String
  storyId : String
  authorId : String
  text : String
  createdAt : String
deriving Repr, DecidableEq

/-- The three in-memory collections destructured from the loaded document
(`let \x7b stories, users, comments \x7d = db`). -/
structure DB where
  stories : List Story
  users : List User
  comments : List Comment
deriving Repr, DecidableEq

/-- JSON values, the shape of the persisted `data.json` document. -/
inductive Json where
  | str : String → Json
  | num : Int → Json
  | arr : List Json → Json
  | obj : List (String × Json) → Json

/-- Field lookup in a JSON object, as JavaScript property access. -/
def jsonField (j : Json) (k : String) : Option Json :=
  match j with
  | .obj kvs => (kvs.find? (fun kv => kv.fst == k)).map (fun kv => kv.snd)
  | _ => none

/-- Expect a JSON string. -/
def jsonStr : Option Json → Option String
  | some (.str s) => some s
  | _ => none

/-- Expect a JSON integer. -/
def jsonInt : Option Json → Option Int
  | some (.num n) => some n
  | _ => none

/-- Expect a JSON array. -/
def jsonArr : Option Json → Option (List Json)
  | some (.arr l) => some l
  | _ => none

/-- Structural `Option`-valued map over a list, failing if any element fails. -/
def mapOption (f : α → Option β) : List α → Option (List β)
  | [] => some []
  | a :: l =>
    match f a with
    | none => none
    | some b => (mapOption f l).map (fun l2 => b :: l2)

/-- Serialization of a story into the persisted document (`fs.writeJson`). -/
def encodeStory (s : Story) : Json :=
  .obj [("id", .str s.id), ("title", .str s.title), ("body", .str s.body),
    ("authorId", .str s.authorId), ("genre", .str s.genre),
    ("likes", .num s.likes), ("createdAt", .str s.createdAt)]

/-- Reading a story back from the persisted document. -/
def decodeStory (j : Json) : Option Story := do
  let id ← jsonStr (jsonField j "id")
  let title ← jsonStr (jsonField j "title")
  let body ← jsonStr (jsonField j "body")
  let authorId ← jsonStr (jsonField j "authorId")
  let genre ← jsonStr (jsonField j "genre")
  let likes ← jsonInt (jsonField j "likes")
  let createdAt ← jsonStr (jsonField j "createdAt")
  some { id := id, title := title, body := body, authorId := authorId,
         genre := genre, likes := likes, createdAt := createdAt }

/-- Serialization of a user into the persisted document. -/
def encodeUser (u : User) : Json :=
  .obj [("id", .str u.id), ("name", .str u.name), ("email", .str u.email),
    ("bio", .str u.bio), ("avatarUrl", .str u.avatarUrl)]

/-- Reading a user back from the persisted document. -/
def decodeUser (j : Json) : Option User := do
  let id ← jsonStr (jsonField j "id")
  let name ← jsonStr (jsonField j "name")
  let email ← jsonStr (jsonField j "email")
  let bio ← jsonStr (jsonField j "bio")
  let avatarUrl ← jsonStr (jsonField j "avatarUrl")
  some { id := id, name := name, email := email, bio := bio,
         avatarUrl := avatarUrl }

/-- Serialization of a comment into the persisted document. -/
def encodeComment (c : Comment) : Json :=
  .obj [("id", .str c.id), ("storyId", .str c.storyId), ("authorId", .str c.authorId),
    ("text", .str c.text), ("createdAt", .str c.createdAt)]

/-- Reading a comment back from the persisted document. -/
def decodeComment (j : Json) : Option Comment := do
  let id ← jsonStr (jsonField j "id")
  let storyId ← jsonStr (jsonField j "storyId")
  let authorId ← jsonStr (jsonField j "authorId")
  let text ← jsonStr (jsonField j "text")
  let createdAt ← jsonStr (jsonField j "createdAt")
  some { id := id, storyId := storyId, authorId := authorId, text := text,
         createdAt := createdAt }

/-- `saveDB`: the whole state serialized as one JSON document with the three
collection arrays. -/
def encodeDB (db : DB) : Json :=
  .obj [("stories", .arr (db.stories.map encodeStory)),
    ("users", .arr (db.users.map encodeUser)),
    ("comments", .arr (db.comments.map encodeComment))]

/-- Reading the document back and destructuring the three collections, as the
startup `fs.readJsonSync` followed by `let \x7b stories, users, comments \x7d = db`. -/
def decodeDB (j : Json) : Option DB := do
  let stories ← mapOption decodeStory (← jsonArr (jsonField j "stories"))
  let users ← mapOption decodeUser (← jsonArr (jsonField j "users"))
  let comments ← mapOption decodeComment (← jsonArr (jsonField j "comments"))
  some { stories := stories, users := users, comments := comments }

/-- The seed dataset used when `data.json` is absent or unreadable; `now` is
the startup timestamp. -/
def seedDB (now : String) : DB :=
  { stories := [
      { id := "s1", title := "A Moonlit Night", body := "Once upon a moonlit night...",
        authorId := "u1", genre := "Fantasy", likes := 3, createdAt := now }],
    users := [
      { id := "u1", name := "Meghana M", email := "", bio := "Student", avatarUrl := "" }],
    comments := [] }

/-- Whole server state: in-memory collections, the persisted document
(`none` when `data.json` is absent or unparsable), and the raw content of the
activity log file (`none` when `userActivity.json` does not exist). -/
structure SysState where
  db : DB
  disk : Option Json
  log : Option String

/-- `saveDB`: overwrite the persisted document with the current state. -/
def flush (st : SysState) : SysState :=
  { st with disk := some (encodeDB st.db) }

/-- Startup: load the document, or fall back to the seed when it is absent or
unparsable; `none` models the collections coming out `undefined` when a parsed
document does not hold the three arrays. -/
def startup (disk : Option Json) (log : Option String) (now : String) : Option SysState :=
  match disk with
  | none => some { db := seedDB now, disk := none, log := log }
  | some j => (decodeDB j).map (fun db => { db := db, disk := disk, log := log })

/-- JavaScript truthiness of a required string field: `undefined`, `null`, and
the empty string are falsy. -/
def present : Option String → Bool
  | none => false
  | some s => !s.isEmpty

/-- Author-name enrichment: `users.find(u => u.id === authorId)`, with the
literal `"Unknown"` for a dangling reference. -/
def authorNameFor (users : List User) (authorId : String) : String :=
  match users.find? (fun u => u.id == authorId) with
  | some u => u.name
  | none => "Unknown"

/-- A story as returned in a response, with the computed `authorName`. -/
structure EnrichedStory where
  story : Story
  authorName : String
deriving Repr, DecidableEq

/-- A comment as returned in a response, with the computed `authorName`. -/
structure EnrichedComment where
  comment : Comment
  authorName : String
deriving Repr, DecidableEq

def enrichStory (users : List User) (s : Story) : EnrichedStory :=
  { story := s, authorName := authorNameFor users s.authorId }

def enrichComment (users : List User) (c : Comment) : EnrichedComment :=
  { comment := c, authorName := authorNameFor users c.authorId }

/-- The error taxonomy: 400 ValidationError, 404 NotFound, and 500 for a
handler that throws (reaches the global error handler). -/
inductive ApiError where
  | validation
  | notFound
  | internal
deriving Repr, DecidableEq

/-- Does `needle` start `hay`? -/
def leadsWith : List Char → List Char → Bool
  | [], _ => true
  | _ :: _, [] => false
  | a :: as, b :: bs => a == b && leadsWith as bs

/-- Does `needle` occur contiguously inside `hay`? -/
def occursIn (needle : List Char) : List Char → Bool
  | [] => needle.isEmpty
  | c :: rest => leadsWith needle (c :: rest) || occursIn needle rest

/-- JavaScript `hay.includes(needle)`: substring containment. -/
def jsIncludes (hay needle : String) : Bool :=
  occursIn needle.data hay.data

/-- JavaScript `s.toLowerCase()` (character-wise lowering). -/
def jsToLower (s : String) : String :=
  String.mk (s.data.map Char.toLower)

/-- JavaScript `s.trim()`: strip whitespace from both ends. -/
def jsTrim (s : String) : String :=
  String.mk (((s.data.dropWhile Char.isWhitespace).reverse.dropWhile
    Char.isWhitespace).reverse)

/-- JavaScript `s.split(sep)` for a one-character separator. -/
def splitChar (sep : Char) : List Char → List (List Char)
  | [] => [[]]
  | c :: rest =>
    match splitChar sep rest with
    | [] => [[]]
    | line :: more => if c = sep then [] :: line :: more else (c :: line) :: more

/-- GET /api/stories: optional case-insensitive substring filter over
title+body, then author-name enrichment. -/
def listStories (db : DB) (q : Option String) : List EnrichedStory :=
  let qq := jsToLower (q.getD "")
  let result := if qq.isEmpty then db.stories
    else db.stories.filter (fun s => jsIncludes (jsToLower (s.title ++ " " ++ s.body)) qq)
  result.map (enrichStory db.users)

/-- GET /api/stories/:id: the story with its enriched comments. -/
def getStory (db : DB) (id : String) : Except ApiError (EnrichedStory × List EnrichedComment) :=
  match db.stories.find? (fun s => s.id == id) with
  | none => .error .notFound
  | some story =>
    .ok (enrichStory db.users story,
      (db.comments.filter (fun c => c.storyId == story.id)).map (enrichComment db.users))

/-- POST /api/stories: validate title/body/authorId, build the new story with
the generated id and timestamp, `unshift` it, flush, return it enriched. -/
def createStory (st : SysState) (newId now : String)
    (title body authorId genre : Option String) : SysState × Except ApiError EnrichedStory :=
  if !(present title) || !(present body) || !(present authorId) then
    (st, .error .validation)
  else
    let s : Story := { id := newId, title := title.getD "", body := body.getD "",
                       authorId := authorId.getD "", genre := genre.getD "", likes := 0,
                       createdAt := now }
    let db : DB := { st.db with stories := s :: st.db.stories }
    (flush { st with db := db }, .ok (enrichStory db.users s))

/-- A PUT /api/stories/:id request body: `undefined` fields are `none`. -/
structure StoryPatch where
  title : Option String
  body : Option String
  genre : Option String
  likes : Option Int
deriving Repr, DecidableEq

/-- Field-wise application of a patch: defined fields overwrite, `undefined`
fields keep the stored value. -/
def applyPatch (p : StoryPatch) (s : Story) : Story :=
  { s with title := p.title.getD s.title, body := p.body.getD s.body,
           genre := p.genre.getD s.genre, likes := p.likes.getD s.likes }

/-- In-place mutation of the first story matching `id`
(`stories.findIndex` / `stories.find` followed by assignment). -/
def modifyFirst (f : Story → Story) (id : String) : List Story → Option (List Story × Story)
  | [] => none
  | s :: rest =>
    if s.id == id then
      some (f s :: rest, f s)
    else
      match modifyFirst f id rest with
      | none => none
      | some (rest2, s2) => some (s :: rest2, s2)

/-- PUT /api/stories/:id: NotFound when absent, otherwise patch in place,
flush, return enriched. -/
def updateStory (st : SysState) (id : String) (p : StoryPatch) :
    SysState × Except ApiError EnrichedStory :=
  match modifyFirst (applyPatch p) id st.db.stories with
  | none => (st, .error .notFound)
  | some (stories2, s2) =>
    let db : DB := { st.db with stories := stories2 }
    (flush { st with db := db }, .ok (enrichStory db.users s2))

/-- DELETE /api/stories/:id: both collections are filtered before the length
check, so the NotFound path has already replaced `comments`; the flush happens
only on success. -/
def deleteStory (st : SysState) (id : String) : SysState × Except ApiError Unit :=
  let stories2 := st.db.stories.filter (fun s => s.id != id)
  let comments2 := st.db.comments.filter (fun c => c.storyId != id)
  let db : DB := { st.db with stories := stories2, comments := comments2 }
  if stories2.length = st.db.stories.length then
    ({ st with db := db }, .error .notFound)
  else
    (flush { st with db := db }, .ok ())

/-- POST /api/stories/:id/like: increment the first matching story's likes. -/
def likeStory (st : SysState) (id : String) : SysState × Except ApiError EnrichedStory :=
  match modifyFirst (fun s => { s with likes := s.likes + 1 }) id st.db.stories with
  | none => (st, .error .notFound)
  | some (stories2, s2) =>
    let db : DB := { st.db with stories := stories2 }
    (flush { st with db := db }, .ok (enrichStory db.users s2))

/-- GET /api/stories/:id/comments: NotFound when the story is absent, else the
story's comments enriched, in insertion order. -/
def listComments (st : SysState) (id : String) : Except ApiError (List EnrichedComment) :=
  match st.db.stories.find? (fun s => s.id == id) with
  | none => .error .notFound
  | some story =>
    .ok ((st.db.comments.filter (fun c => c.storyId == story.id)).map
      (enrichComment st.db.users))

/-- POST /api/stories/:id/comments: the story-existence check comes first,
then field validation; on success the comment is pushed at the end. -/
def createComment (st : SysState) (storyId newId now : String)
    (authorId text : Option String) : SysState × Except ApiError EnrichedComment :=
  match st.db.stories.find? (fun s => s.id == storyId) with
  | none => (st, .error .notFound)
  | some story =>
    if !(present authorId) || !(present text) then
      (st, .error .validation)
    else
      let c : Comment := { id := newId, storyId := story.id, authorId := authorId.getD "",
                           text := text.getD "", createdAt := now }
      let db : DB := { st.db with comments := st.db.comments ++ [c] }
      (flush { st with db := db }, .ok (enrichComment db.users c))

/-- DELETE /api/comments/:commentId. -/
def deleteComment (st : SysState) (id : String) : SysState × Except ApiError Unit :=
  let comments2 := st.db.comments.filter (fun c => c.id != id)
  let db : DB := { st.db with comments := comments2 }
  if comments2.length = st.db.comments.length then
    ({ st with db := db }, .error .notFound)
  else
    (flush { st with db := db }, .ok ())

/-- GET /api/users/:id. -/
def getUser (db : DB) (id : String) : Except ApiError User :=
  match db.users.find? (fun u => u.id == id) with
  | none => .error .notFound
  | some u => .ok u

/-- POST /api/users: the created object carries no `avatarUrl` property,
modelled as the empty string. -/
def createUser (st : SysState) (newId : String) (name email : Option String) :
    SysState × Except ApiError User :=
  if !(present name) then
    (st, .error .validation)
  else
    let u : User := { id := newId, name := name.getD "", email := email.getD "",
                      bio := "", avatarUrl := "" }
    let db : DB := { st.db with users := st.db.users ++ [u] }
    (flush { st with db := db }, .ok u)

/-- One record of the activity log. -/
structure ActivityRecord where
  userId : String
  viewedStoryId : String
  timestamp : String
deriving Repr, DecidableEq

/-- `JSON.stringify(\x7b userId, viewedStoryId, timestamp \x7d)`, the exact line
format the server appends to `userActivity.json`. -/
def serializeActivity (r : ActivityRecord) : String :=
  "\x7b\"userId\":\"" ++ r.userId ++ "\",\"viewedStoryId\":\"" ++ r.viewedStoryId ++
    "\",\"timestamp\":\"" ++ r.timestamp ++ "\"\x7d"

/-- `JSON.parse` of one log line, restricted to the record format the server
itself writes (field values without quote characters); any other line —
in particular the empty string produced by splitting an empty file — fails,
modelling the `SyntaxError` thrown by `JSON.parse`. -/
def parseActivityLine (line : String) : Option ActivityRecord :=
  match (splitChar '"' line.data).map (fun cs => String.mk cs) with
  | ["\x7b", "userId", ":", u, ",", "viewedStoryId", ":", v, ",", "timestamp", ":", t, "\x7d"] =>
    some { userId := u, viewedStoryId := v, timestamp := t }
  | _ => none

/-- POST /api/userActivity: validate, then append one serialized record plus a
newline to the log file (created if absent). -/
def recordActivity (st : SysState) (now : String) (userId viewedStoryId : Option String) :
    SysState × Except ApiError Unit :=
  if !(present userId) || !(present viewedStoryId) then
    (st, .error .validation)
  else
    let r : ActivityRecord := { userId := userId.getD "", viewedStoryId := viewedStoryId.getD "",
                                timestamp := now }
    ({ st with log := some ((st.log.getD "") ++ serializeActivity r ++ "\n") }, .ok ())

/-- The lines of the activity file: `readFileSync(..).trim().split("\n")`. -/
def logLines (content : String) : List String :=
  (splitChar '\n' (jsTrim content).data).map (fun cs => String.mk cs)

/-- `getUserHistory`: an absent file yields `[]`; otherwise every trim-split
line is parsed (a parse failure throws, reaching the 500 handler) and the
records are filtered by `userId` in file order. -/
def getUserHistory (log : Option String) (userId : String) :
    Except ApiError (List ActivityRecord) :=
  match log with
  | none => .ok []
  | some content =>
    match mapOption parseActivityLine (logLines content) with
    | none => .error .internal
    | some recs => .ok (recs.filter (fun a => a.userId == userId))

/-- GET /api/recommend/:userId: last record of the user's history, resolve the
viewed story, return up to 3 same-genre stories excluding it, in collection
order; an empty history or an unresolvable story yields `[]`.  The returned
stories are not enriched. -/
def recommend (st : SysState) (userId : String) : Except ApiError (List Story) :=
  match getUserHistory st.log userId with
  | .error e => .error e
  | .ok history =>
    match history.getLast? with
    | none => .ok []
    | some lastViewed =>
      match st.db.stories.find? (fun s => s.id == lastViewed.viewedStoryId) with
      | none => .ok []
      | some viewedStory =>
        .ok ((st.db.stories.filter
          (fun s => s.genre == viewedStory.genre && s.id != viewedStory.id)).take 3)

/-- One request against the server, with all generated values explicit. -/
inductive Op where
  | listStoriesOp (q : Option String)
  | getStoryOp (id : String)
  | createStoryOp (newId now : String) (title body authorId genre : Option String)
  | updateStoryOp (id : String) (patch : StoryPatch)
  | deleteStoryOp (id : String)
  | likeStoryOp (id : String)
  | listCommentsOp (id : String)
  | createCommentOp (storyId newId now : String) (authorId text : Option String)
  | deleteCommentOp (id : String)
  | getUserOp (id : String)
  | createUserOp (newId : String) (name email : Option String)
  | recordActivityOp (now : String) (userId viewedStoryId : Option String)
  | recommendOp (userId : String)
deriving Repr, DecidableEq

/-- State transition of one request, with the response payload erased. -/
def step (st : SysState) : Op → SysState × Except ApiError Unit
  | .listStoriesOp _ => (st, .ok ())
  | .getStoryOp id => (st, (getStory st.db id).map (fun _ => ()))
  | .createStoryOp newId now title body authorId genre =>
    let r := createStory st newId now title body authorId genre
    (r.1, r.2.map (fun _ => ()))
  | .updateStoryOp id p =>
    let r := updateStory st id p
    (r.1, r.2.map (fun _ => ()))
  | .deleteStoryOp id => deleteStory st id
  | .likeStoryOp id =>
    let r := likeStory st id
    (r.1, r.2.map (fun _ => ()))
  | .listCommentsOp id => (st, (listComments st id).map (fun _ => ()))
  | .createCommentOp storyId newId now authorId text =>
    let r := createComment st storyId newId now authorId text
    (r.1, r.2.map (fun _ => ()))
  | .deleteCommentOp id => deleteComment st id
  | .getUserOp id => (st, (getUser st.db id).map (fun _ => ()))
  | .createUserOp newId name email =>
    let r := createUser st newId name email
    (r.1, r.2.map (fun _ => ()))
  | .recordActivityOp now userId viewedStoryId => recordActivity st now userId viewedStoryId
  | .recommendOp userId => (st, (recommend st userId).map (fun _ => ()))

/-- Execution of a request sequence. -/
def run (st : SysState) : List Op → SysState
  | [] => st
  | op :: ops => run (step st op).1 ops

/-- The state right after a first startup with no data file and no log. -/
def seedState : SysState :=
  { db := seedDB "t0", disk := none, log := none }

/-- The recommendation contract as the specification words it: last record of
the history, resolve the viewed story, up to 3 stories of the same genre in
collection order excluding the viewed one, `[]` when the history is empty or
the story is gone. -/
def recommendSpec (history : List ActivityRecord) (stories : List Story) : List Story :=
  match history.getLast? with
  | none => []
  | some lastViewed =>
    match stories.find? (fun s => s.id == lastViewed.viewedStoryId) with
    | none => []
    | some viewedStory =>
      (stories.filter (fun s => s.genre == viewedStory.genre && s.id != viewedStory.id)).take 3

/-- All stored likes counters are non-negative. -/
def likesNonneg (db : DB) : Prop := ∀ s ∈ db.stories, 0 ≤ s.likes

instance (db : DB) : Decidable (likesNonneg db) :=
  inferInstanceAs (Decidable (∀ s ∈ db.stories, 0 ≤ s.likes))

/-- The operation does not patch `likes` to a negative value (all operations
other than a story update satisfy this trivially). -/
def patchLikesNonneg : Op → Prop
  | .updateStoryOp _ p => ∀ n, p.likes = some n → 0 ≤ n
  | _ => True

/-- Did the handler answer with a success status? -/
def apiOk : Except ApiError α → Bool
  | .ok _ => true
  | .error _ => false

/-- A state holding a comment whose story is gone (such a document can be
loaded from disk; no story `x` exists). -/
def danglingState : SysState :=
  { db := { stories := [], users := [],
            comments := [{ id := "c1", storyId := "x", authorId := "u1", text := "hi",
                           createdAt := "t1" }] },
    disk := none, log := none }

/-- A state whose activity log file exists but is empty. -/
def emptyLogState : SysState :=
  { db := seedDB "t0", disk := none, log := some "" }

/-- A state with no users at all. -/
def noUsersState : SysState :=
  { db := { stories := [], users := [], comments := [] }, disk := none, log := none }

theorem decodeStory_encodeStory (s : Story) : decodeStory (encodeStory s) = some s := rfl

theorem decodeUser_encodeUser (u : User) : decodeUser (encodeUser u) = some u := rfl

theorem decodeComment_encodeComment (c : Comment) :
    decodeComment (encodeComment c) = some c := rfl

theorem mapOption_decodeStory (l : List Story) :
    mapOption decodeStory (l.map encodeStory) = some l := by
  induction l with
  | nil => rfl
  | cons a l ih => simp [mapOption, decodeStory_encodeStory, ih]

theorem mapOption_decodeUser (l : List User) :
    mapOption decodeUser (l.map encodeUser) = some l := by
  induction l with
  | nil => rfl
  | cons a l ih => simp [mapOption, decodeUser_encodeUser, ih]

theorem mapOption_decodeComment (l : List Comment) :
    mapOption decodeComment (l.map encodeComment) = some l := by
  induction l with
  | nil => rfl
  | cons a l ih => simp [mapOption, decodeComment_encodeComment, ih]

theorem decodeDB_encodeDB (db : DB) : decodeDB (encodeDB db) = some db := by
  simp [decodeDB, encodeDB, jsonField, jsonArr, mapOption_decodeStory,
    mapOption_decodeUser, mapOption_decodeComment]

/-- C1: flushing serializes the three collections into the persisted document,
and loading that document back at startup reproduces exactly the same stories,
users, and comments (same ids and field values); enrichment fields are never
part of the stored `DB` state, so they are trivially not persisted. -/
theorem persistence_roundtrip (st : SysState) (log : Option String) (now : String) :
    (flush st).disk = some (encodeDB st.db) ∧
    startup (flush st).disk log now = some { db := st.db, disk := (flush st).disk, log := log } := by
  refine ⟨rfl, ?_⟩
  simp [startup, flush, decodeDB_encodeDB]

theorem filter_eq_of_length_eq (p : α → Bool) :
    ∀ l : List α, (l.filter p).length = l.length → l.filter p = l
  | [], _ => rfl
  | a :: l, h => by
    by_cases hp : p a
    · simp only [List.filter_cons, hp, if_true, List.length_cons, Nat.add_right_cancel_iff] at h
      simp [List.filter_cons, hp, filter_eq_of_length_eq p l h]
    · simp only [List.filter_cons, hp, if_false, List.length_cons, Bool.false_eq_true] at h
      have := l.length_filter_le p
      omega

theorem mapOption_isSome {f : α → Option β} {l : List α}
    (h : ∀ a ∈ l, (f a).isSome) : ∃ l2, mapOption f l = some l2 := by
  induction l with
  | nil => exact ⟨[], rfl⟩
  | cons a l ih =>
    obtain ⟨b, hb⟩ := Option.isSome_iff_exists.mp (h a (List.mem_cons_self a l))
    obtain ⟨l2, hl2⟩ := ih (fun x hx => h x (List.mem_cons_of_mem a hx))
    exact ⟨b :: l2, by simp [mapOption, hb, hl2]⟩

theorem modifyFirst_eq_none (f : Story → Story) (id : String) {l : List Story}
    (h : ∀ s ∈ l, s.id ≠ id) : modifyFirst f id l = none := by
  induction l with
  | nil => rfl
  | cons s l ih =>
    have hs : (s.id == id) = false := by
      simpa using h s (List.mem_cons_self s l)
    simp [modifyFirst, hs, ih (fun t ht => h t (List.mem_cons_of_mem s ht))]

theorem modifyFirst_append (f : Story → Story) (id : String) (s : Story) (hs : s.id = id)
    (pre post : List Story) (h : ∀ t ∈ pre, t.id ≠ id) :
    modifyFirst f id (pre ++ s :: post) = some (pre ++ f s :: post, f s) := by
  induction pre with
  | nil => simp [modifyFirst, hs]
  | cons t pre ih =>
    have ht : (t.id == id) = false := by
      simpa using h t (List.mem_cons_self t pre)
    simp [modifyFirst, ht, ih (fun u hu => h u (List.mem_cons_of_mem t hu))]

theorem modifyFirst_mem (f : Story → Story) (id : String) {l l2 : List Story} {s2 : Story}
    (h : modifyFirst f id l = some (l2, s2)) :
    ∀ t ∈ l2, t ∈ l ∨ ∃ u ∈ l, t = f u := by
  induction l generalizing l2 s2 with
  | nil => cases h
  | cons s l ih =>
    by_cases hid : (s.id == id) = true
    · simp only [modifyFirst, hid, if_true, Option.some.injEq, Prod.mk.injEq] at h
      intro t ht
      rw [← h.1] at ht
      rcases List.mem_cons.mp ht with rfl | htl
      · exact Or.inr ⟨s, List.mem_cons_self s l, rfl⟩
      · exact Or.inl (List.mem_cons_of_mem s htl)
    · have hid2 : (s.id == id) = false := by simpa using hid
      simp only [modifyFirst, hid2, Bool.false_eq_true, if_false] at h
      cases hrec : modifyFirst f id l with
      | none => rw [hrec] at h; cases h
      | some pr =>
        obtain ⟨rest2, s3⟩ := pr
        rw [hrec] at h
        simp only [Option.some.injEq, Prod.mk.injEq] at h
        intro t ht
        rw [← h.1] at ht
        rcases List.mem_cons.mp ht with rfl | htl
        · exact Or.inl (List.mem_cons_self t l)
        · rcases ih hrec t htl with h1 | ⟨u, hu, rfl⟩
          · exact Or.inl (List.mem_cons_of_mem s h1)
          · exact Or.inr ⟨u, List.mem_cons_of_mem s hu, rfl⟩

/-- C2: whenever the history read succeeds, the recommendation endpoint
returns exactly the list the specification describes: empty if the user's
history is empty or the last-viewed story is gone, else the first at most 3
same-genre stories in collection order, the viewed story excluded. -/
theorem recommend_matches_spec (st : SysState) (userId : String)
    (history : List ActivityRecord)
    (h : getUserHistory st.log userId = .ok history) :
    recommend st userId = .ok (recommendSpec history st.db.stories) := by
  cases hl : history.getLast? with
  | none => simp [recommend, recommendSpec, h, hl]
  | some lastViewed =>
    cases hf : st.db.stories.find? (fun s => s.id == lastViewed.viewedStoryId) with
    | none => simp [recommend, recommendSpec, h, hl, hf]
    | some viewedStory => simp [recommend, recommendSpec, h, hl, hf]

theorem recommend_matches_spec_witness :
    recommend { db := seedDB "t0", disk := none,
                log := some (serializeActivity
                  { userId := "u1", viewedStoryId := "s1", timestamp := "t1" } ++ "\n") } "u1" =
      .ok (recommendSpec [{ userId := "u1", viewedStoryId := "s1", timestamp := "t1" }]
        (seedDB "t0").stories) :=
  recommend_matches_spec _ "u1" _ rfl

/-- C3: deleting a present story id removes the story and every comment whose
`storyId` matches, after which listing its comments fails with NotFound;
deleting an absent id fails with NotFound. -/
theorem deleteStory_cascade (st : SysState) (x : String) :
    ((∃ s ∈ st.db.stories, s.id = x) →
      (deleteStory st x).2 = .ok () ∧
      (∀ s ∈ (deleteStory st x).1.db.stories, s.id ≠ x) ∧
      (∀ c ∈ (deleteStory st x).1.db.comments, c.storyId ≠ x) ∧
      listComments (deleteStory st x).1 x = .error .notFound) ∧
    ((∀ s ∈ st.db.stories, s.id ≠ x) → (deleteStory st x).2 = .error .notFound) := by
  constructor
  · rintro ⟨s0, hs0, hid0⟩
    have hlen : ¬ ((st.db.stories.filter (fun s => s.id != x)).length = st.db.stories.length) := by
      intro hl
      have heq := filter_eq_of_length_eq _ _ hl
      have := (List.filter_eq_self.mp heq) s0 hs0
      simp [hid0] at this
    have hmem : ∀ s ∈ st.db.stories.filter (fun s => s.id != x), s.id ≠ x := by
      intro s hsmem
      have := (List.mem_filter.mp hsmem).2
      simpa using this
    have hcmem : ∀ c ∈ st.db.comments.filter (fun c => c.storyId != x), c.storyId ≠ x := by
      intro c hcm
      have := (List.mem_filter.mp hcm).2
      simpa using this
    have hdel : deleteStory st x =
        (flush { st with db := { st.db with
            stories := st.db.stories.filter (fun s => s.id != x),
            comments := st.db.comments.filter (fun c => c.storyId != x) } }, .ok ()) := by
      simp only [deleteStory]
      rw [if_neg hlen]
    have hfind : (st.db.stories.filter (fun s => s.id != x)).find? (fun s => s.id == x) = none := by
      rw [List.find?_eq_none]
      intro s hsm
      simpa using hmem s hsm
    refine ⟨by rw [hdel], ?_, ?_, ?_⟩
    · rw [hdel]; exact hmem
    · rw [hdel]; exact hcmem
    · rw [hdel]
      simp only [listComments, flush]
      rw [hfind]
  · intro habs
    have heq : st.db.stories.filter (fun s => s.id != x) = st.db.stories := by
      rw [List.filter_eq_self]
      intro s hsm
      simpa using habs s hsm
    simp [deleteStory, heq]

theorem deleteStory_cascade_witness :
    ((deleteStory seedState "s1").2 = .ok () ∧
      (∀ s ∈ (deleteStory seedState "s1").1.db.stories, s.id ≠ "s1") ∧
      (∀ c ∈ (deleteStory seedState "s1").1.db.comments, c.storyId ≠ "s1") ∧
      listComments (deleteStory seedState "s1").1 "s1" = .error .notFound) ∧
    (deleteStory seedState "zz").2 = .error .notFound :=
  ⟨(deleteStory_cascade seedState "s1").1 (by decide),
   (deleteStory_cascade seedState "zz").2 (by decide)⟩

/-- C4: a valid creation (title, body, authorId present and non-empty) with a
generated id unused so far returns a story carrying that fresh id and
`likes = 0`, and the new story is the head of a subsequent listing. -/
theorem createStory_fresh_head (st : SysState) (newId now : String)
    (title body authorId genre : Option String)
    (ht : present title = true) (hb : present body = true) (ha : present authorId = true)
    (hfresh : ∀ s ∈ st.db.stories, s.id ≠ newId) :
    ∃ stNew es,
      createStory st newId now title body authorId genre = (stNew, .ok es) ∧
      es.story.id = newId ∧
      (∀ s ∈ st.db.stories, s.id ≠ es.story.id) ∧
      es.story.likes = 0 ∧
      (listStories stNew.db none).head? = some es := by
  have hstep : createStory st newId now title body authorId genre =
      (flush { st with db := { st.db with stories :=
          { id := newId, title := title.getD "", body := body.getD "",
            authorId := authorId.getD "", genre := genre.getD "", likes := 0,
            createdAt := now } :: st.db.stories } },
       .ok (enrichStory st.db.users
          { id := newId, title := title.getD "", body := body.getD "",
            authorId := authorId.getD "", genre := genre.getD "", likes := 0,
            createdAt := now })) := by
    simp only [createStory, ht, hb, ha, Bool.not_true, Bool.or_self, Bool.false_or,
      Bool.or_false, if_false, Bool.false_eq_true]
  exact ⟨_, _, hstep, rfl, hfresh, rfl, rfl⟩

theorem createStory_fresh_head_witness :
    ∃ stNew es,
      createStory seedState "n1" "t1" (some "T") (some "B") (some "u1") none = (stNew, .ok es) ∧
      es.story.id = "n1" ∧
      (∀ s ∈ seedState.db.stories, s.id ≠ es.story.id) ∧
      es.story.likes = 0 ∧
      (listStories stNew.db none).head? = some es :=
  createStory_fresh_head seedState "n1" "t1" (some "T") (some "B") (some "u1") none
    rfl rfl rfl (by decide)

theorem map_unit_error {α : Type} {r : Except ApiError α} {e : ApiError}
    (h : r.map (fun _ => ()) = .error e) : r = .error e := by
  cases r with
  | ok a => simp [Except.map] at h
  | error e2 =>
    simp only [Except.map, Except.error.injEq] at h
    rw [h]

theorem createStory_error_state (st : SysState) (newId now : String)
    (title body authorId genre : Option String) {e : ApiError}
    (h : (createStory st newId now title body authorId genre).2 = .error e) :
    (createStory st newId now title body authorId genre).1 = st := by
  by_cases hc : (!(present title) || !(present body) || !(present authorId)) = true
  · simp [createStory, hc]
  · have hc2 : (!(present title) || !(present body) || !(present authorId)) = false := by
      simpa using hc
    simp [createStory, hc2] at h

theorem updateStory_error_state {st : SysState} {id : String} {p : StoryPatch} {e : ApiError}
    (h : (updateStory st id p).2 = .error e) : (updateStory st id p).1 = st := by
  cases hm : modifyFirst (applyPatch p) id st.db.stories with
  | none => simp [updateStory, hm]
  | some pr =>
    obtain ⟨l2, s2⟩ := pr
    simp [updateStory, hm] at h

theorem likeStory_error_state {st : SysState} {id : String} {e : ApiError}
    (h : (likeStory st id).2 = .error e) : (likeStory st id).1 = st := by
  cases hm : modifyFirst (fun s => { s with likes := s.likes + 1 }) id st.db.stories with
  | none => simp [likeStory, hm]
  | some pr =>
    obtain ⟨l2, s2⟩ := pr
    simp [likeStory, hm] at h

theorem createComment_error_state {st : SysState} {storyId newId now : String}
    {authorId text : Option String} {e : ApiError}
    (h : (createComment st storyId newId now authorId text).2 = .error e) :
    (createComment st storyId newId now authorId text).1 = st := by
  cases hf : st.db.stories.find? (fun s => s.id == storyId) with
  | none => simp [createComment, hf]
  | some story =>
    by_cases hv : (!(present authorId) || !(present text)) = true
    · simp [createComment, hf, hv]
    · have hv2 : (!(present authorId) || !(present text)) = false := by simpa using hv
      simp [createComment, hf, hv2] at h

theorem deleteComment_error_state {st : SysState} {id : String} {e : ApiError}
    (h : (deleteComment st id).2 = .error e) : (deleteComment st id).1 = st := by
  by_cases hl : (st.db.comments.filter (fun c => c.id != id)).length = st.db.comments.length
  · have heq := filter_eq_of_length_eq _ _ hl
    simp only [deleteComment]
    rw [if_pos hl, heq]
  · simp only [deleteComment] at h
    rw [if_neg hl] at h
    simp at h

theorem createUser_error_state {st : SysState} {newId : String} {name email : Option String}
    {e : ApiError} (h : (createUser st newId name email).2 = .error e) :
    (createUser st newId name email).1 = st := by
  by_cases hn : (!(present name)) = true
  · simp [createUser, hn]
  · have hn2 : (!(present name)) = false := by simpa using hn
    simp [createUser, hn2] at h

theorem recordActivity_error_state {st : SysState} {now : String}
    {userId viewedStoryId : Option String} {e : ApiError}
    (h : (recordActivity st now userId viewedStoryId).2 = .error e) :
    (recordActivity st now userId viewedStoryId).1 = st := by
  by_cases hc : (!(present userId) || !(present viewedStoryId)) = true
  · simp [recordActivity, hc]
  · have hc2 : (!(present userId) || !(present viewedStoryId)) = false := by simpa using hc
    simp [recordActivity, hc2] at h

/-- C5 counterexample: with a dangling comment on file (story `x` absent),
`DELETE /api/stories/x` answers NotFound, yet the in-memory comment
collection has changed — the handler filters `comments` before the
existence check. -/
theorem error_atomicity_counterexample :
    (deleteStory danglingState "x").2 = .error .notFound ∧
    (deleteStory danglingState "x").1.db.comments ≠ danglingState.db.comments :=
  ⟨rfl, by decide⟩

/-- C5 amended: an operation failing with NotFound or ValidationError leaves
the persisted document, the activity log, the users, and the stories exactly
as they were, and also the comments — except that `deleteStory` has already
filtered the comment collection by `storyId` when it reports NotFound, so
comments dangling on the requested id are removed even then. -/
theorem step_error_preserves (st : SysState) (op : Op) (e : ApiError)
    (h : (step st op).2 = .error e) (_he : e = .notFound ∨ e = .validation) :
    (step st op).1.disk = st.disk ∧ (step st op).1.log = st.log ∧
    (step st op).1.db.users = st.db.users ∧
    (step st op).1.db.stories = st.db.stories ∧
    (step st op).1.db.comments = (match op with
      | .deleteStoryOp x => st.db.comments.filter (fun c => c.storyId != x)
      | _ => st.db.comments) := by
  cases op with
  | listStoriesOp q => exact ⟨rfl, rfl, rfl, rfl, rfl⟩
  | getStoryOp id => exact ⟨rfl, rfl, rfl, rfl, rfl⟩
  | createStoryOp newId now t b a g =>
    have h1 := createStory_error_state _ _ _ _ _ _ _ (map_unit_error (by simpa only [step] using h))
    simp only [step]
    rw [h1]
    exact ⟨rfl, rfl, rfl, rfl, rfl⟩
  | updateStoryOp id p =>
    have h1 := updateStory_error_state (map_unit_error (by simpa only [step] using h))
    simp only [step]
    rw [h1]
    exact ⟨rfl, rfl, rfl, rfl, rfl⟩
  | deleteStoryOp x =>
    by_cases hl : (st.db.stories.filter (fun s => s.id != x)).length = st.db.stories.length
    · have heq := filter_eq_of_length_eq _ _ hl
      simp only [step, deleteStory]
      rw [if_pos hl]
      exact ⟨rfl, rfl, rfl, heq, rfl⟩
    · simp only [step, deleteStory] at h
      rw [if_neg hl] at h
      simp at h
  | likeStoryOp id =>
    have h1 := likeStory_error_state (map_unit_error (by simpa only [step] using h))
    simp only [step]
    rw [h1]
    exact ⟨rfl, rfl, rfl, rfl, rfl⟩
  | listCommentsOp id => exact ⟨rfl, rfl, rfl, rfl, rfl⟩
  | createCommentOp storyId newId now authorId text =>
    have h1 := createComment_error_state (map_unit_error (by simpa only [step] using h))
    simp only [step]
    rw [h1]
    exact ⟨rfl, rfl, rfl, rfl, rfl⟩
  | deleteCommentOp id =>
    have h1 := deleteComment_error_state (by simpa only [step] using h)
    simp only [step]
    rw [h1]
    exact ⟨rfl, rfl, rfl, rfl, rfl⟩
  | getUserOp id => exact ⟨rfl, rfl, rfl, rfl, rfl⟩
  | createUserOp newId name email =>
    have h1 := createUser_error_state (map_unit_error (by simpa only [step] using h))
    simp only [step]
    rw [h1]
    exact ⟨rfl, rfl, rfl, rfl, rfl⟩
  | recordActivityOp now userId viewedStoryId =>
    have h1 := recordActivity_error_state (by simpa only [step] using h)
    simp only [step]
    rw [h1]
    exact ⟨rfl, rfl, rfl, rfl, rfl⟩
  | recommendOp userId => exact ⟨rfl, rfl, rfl, rfl, rfl⟩

theorem step_error_preserves_witness :
    (step seedState (Op.updateStoryOp "zz"
      { title := none, body := none, genre := none, likes := none })).1.disk = seedState.disk ∧
    (step seedState (Op.updateStoryOp "zz"
      { title := none, body := none, genre := none, likes := none })).1.log = seedState.log ∧
    (step seedState (Op.updateStoryOp "zz"
      { title := none, body := none, genre := none, likes := none })).1.db.users =
      seedState.db.users ∧
    (step seedState (Op.updateStoryOp "zz"
      { title := none, body := none, genre := none, likes := none })).1.db.stories =
      seedState.db.stories ∧
    (step seedState (Op.updateStoryOp "zz"
      { title := none, body := none, genre := none, likes := none })).1.db.comments =
      seedState.db.comments :=
  step_error_preserves seedState
    (Op.updateStoryOp "zz" { title := none, body := none, genre := none, likes := none })
    ApiError.notFound rfl (Or.inl rfl)

/-- C6: updating an absent id fails with NotFound and, on a present id, the
first matching story is replaced by the patched story: fields supplied in the
patch (title, body, genre, likes) overwrite, absent fields are kept, and id,
authorId and createdAt never change; everything else in the collection is
untouched and the new state is flushed. -/
theorem updateStory_patch_semantics (st : SysState) (id : String) (p : StoryPatch) :
    ((∀ s ∈ st.db.stories, s.id ≠ id) → updateStory st id p = (st, .error .notFound)) ∧
    (∀ pre s post, st.db.stories = pre ++ s :: post → (∀ t ∈ pre, t.id ≠ id) → s.id = id →
      updateStory st id p =
        (flush { st with db := { st.db with stories := pre ++ applyPatch p s :: post } },
         .ok (enrichStory st.db.users (applyPatch p s))) ∧
      (∀ v, p.title = some v → (applyPatch p s).title = v) ∧
      (p.title = none → (applyPatch p s).title = s.title) ∧
      (∀ v, p.body = some v → (applyPatch p s).body = v) ∧
      (p.body = none → (applyPatch p s).body = s.body) ∧
      (∀ v, p.genre = some v → (applyPatch p s).genre = v) ∧
      (p.genre = none → (applyPatch p s).genre = s.genre) ∧
      (∀ v, p.likes = some v → (applyPatch p s).likes = v) ∧
      (p.likes = none → (applyPatch p s).likes = s.likes) ∧
      (applyPatch p s).id = s.id ∧ (applyPatch p s).authorId = s.authorId ∧
      (applyPatch p s).createdAt = s.createdAt) := by
  constructor
  · intro habs
    simp [updateStory, modifyFirst_eq_none (applyPatch p) id habs]
  · intro pre s post hsplit hpre hs
    refine ⟨?_, ?_, ?_, ?_, ?_, ?_, ?_, ?_, ?_, rfl, rfl, rfl⟩
    · rw [updateStory, hsplit, modifyFirst_append (applyPatch p) id s hs pre post hpre]
    · intro v hv; simp [applyPatch, hv]
    · intro hv; simp [applyPatch, hv]
    · intro v hv; simp [applyPatch, hv]
    · intro hv; simp [applyPatch, hv]
    · intro v hv; simp [applyPatch, hv]
    · intro hv; simp [applyPatch, hv]
    · intro v hv; simp [applyPatch, hv]
    · intro hv; simp [applyPatch, hv]

theorem updateStory_patch_semantics_witness :
    updateStory seedState "zz" { title := none, body := none, genre := none, likes := none } =
      (seedState, .error .notFound) ∧
    updateStory seedState "s1"
        { title := some "T2", body := none, genre := none, likes := some 7 } =
      (flush { seedState with db := { seedState.db with stories :=
          [applyPatch { title := some "T2", body := none, genre := none, likes := some 7 }
            { id := "s1", title := "A Moonlit Night", body := "Once upon a moonlit night...",
              authorId := "u1", genre := "Fantasy", likes := 3, createdAt := "t0" }] } },
       .ok (enrichStory seedState.db.users
          (applyPatch { title := some "T2", body := none, genre := none, likes := some 7 }
            { id := "s1", title := "A Moonlit Night", body := "Once upon a moonlit night...",
              authorId := "u1", genre := "Fantasy", likes := 3, createdAt := "t0" }))) :=
  ⟨(updateStory_patch_semantics seedState "zz"
      { title := none, body := none, genre := none, likes := none }).1 (by decide),
   ((updateStory_patch_semantics seedState "s1"
      { title := some "T2", body := none, genre := none, likes := some 7 }).2 []
      { id := "s1", title := "A Moonlit Night", body := "Once upon a moonlit night...",
        authorId := "u1", genre := "Fantasy", likes := 3, createdAt := "t0" } []
      rfl (by decide) rfl).1⟩

/-- C7 counterexample: one update request with a negative `likes` value in the
patch reaches a state whose stored likes counter is negative — the handler
performs no validation on the patched value. -/
theorem likes_invariant_counterexample :
    ¬ likesNonneg (run seedState
      [Op.updateStoryOp "s1"
        { title := none, body := none, genre := none, likes := some (-1) }]).db := by
  decide

theorem step_preserves_likesNonneg (st : SysState) (op : Op)
    (h0 : likesNonneg st.db) (hop : patchLikesNonneg op) :
    likesNonneg (step st op).1.db := by
  cases op with
  | listStoriesOp q => exact h0
  | getStoryOp id => exact h0
  | createStoryOp newId now t b a g =>
    by_cases hc : (!(present t) || !(present b) || !(present a)) = true
    · simpa [step, createStory, hc] using h0
    · have hc2 : (!(present t) || !(present b) || !(present a)) = false := by simpa using hc
      simp only [step, createStory, hc2, Bool.false_eq_true, if_false]
      intro s hs
      rcases List.mem_cons.mp hs with rfl | hmem
      · simp
      · exact h0 s hmem
  | updateStoryOp id p =>
    cases hm : modifyFirst (applyPatch p) id st.db.stories with
    | none => simpa [step, updateStory, hm] using h0
    | some pr =>
      obtain ⟨l2, s2⟩ := pr
      simp only [step, updateStory, hm]
      intro s hs
      rcases modifyFirst_mem (applyPatch p) id hm s hs with hmem | ⟨u, hu, rfl⟩
      · exact h0 s hmem
      · cases hl : p.likes with
        | none => simpa [applyPatch, hl] using h0 u hu
        | some n => simpa [applyPatch, hl] using hop n hl
  | deleteStoryOp x =>
    by_cases hl : (st.db.stories.filter (fun s => s.id != x)).length = st.db.stories.length
    · simp only [step, deleteStory]
      rw [if_pos hl]
      intro s hs
      exact h0 s (List.mem_filter.mp hs).1
    · simp only [step, deleteStory]
      rw [if_neg hl]
      intro s hs
      exact h0 s (List.mem_filter.mp hs).1
  | likeStoryOp id =>
    cases hm : modifyFirst (fun s => { s with likes := s.likes + 1 }) id st.db.stories with
    | none => simpa [step, likeStory, hm] using h0
    | some pr =>
      obtain ⟨l2, s2⟩ := pr
      simp only [step, likeStory, hm]
      intro s hs
      rcases modifyFirst_mem _ id hm s hs with hmem | ⟨u, hu, rfl⟩
      · exact h0 s hmem
      · have := h0 u hu
        simp only
        omega
  | listCommentsOp id => exact h0
  | createCommentOp storyId newId now authorId text =>
    cases hf : st.db.stories.find? (fun s => s.id == storyId) with
    | none => simpa [step, createComment, hf] using h0
    | some story =>
      by_cases hv : (!(present authorId) || !(present text)) = true
      · simpa [step, createComment, hf, hv] using h0
      · have hv2 : (!(present authorId) || !(present text)) = false := by simpa using hv
        simpa [step, createComment, hf, hv2] using h0
  | deleteCommentOp id =>
    by_cases hl : (st.db.comments.filter (fun c => c.id != id)).length = st.db.comments.length
    · simp only [step, deleteComment]
      rw [if_pos hl]
      exact h0
    · simp only [step, deleteComment]
      rw [if_neg hl]
      exact h0
  | getUserOp id => exact h0
  | createUserOp newId name email =>
    by_cases hn : (!(present name)) = true
    · simpa [step, createUser, hn] using h0
    · have hn2 : (!(present name)) = false := by simpa using hn
      simpa [step, createUser, hn2] using h0
  | recordActivityOp now userId viewedStoryId =>
    by_cases hc : (!(present userId) || !(present viewedStoryId)) = true
    · simpa [step, recordActivity, hc] using h0
    · have hc2 : (!(present userId) || !(present viewedStoryId)) = false := by simpa using hc
      simpa [step, recordActivity, hc2] using h0
  | recommendOp userId => exact h0

/-- C7 amended: from a state whose likes are all non-negative, any request
sequence whose story updates never patch `likes` to a negative value keeps
every story's likes non-negative: creation initializes likes to 0, liking
increments by 1, and no other operation changes the counter. -/
theorem likes_invariant_amended (st : SysState) (ops : List Op)
    (h0 : likesNonneg st.db) (hops : ∀ op ∈ ops, patchLikesNonneg op) :
    likesNonneg (run st ops).db := by
  induction ops generalizing st with
  | nil => exact h0
  | cons op ops ih =>
    exact ih (step st op).1
      (step_preserves_likesNonneg st op h0 (hops op (List.mem_cons_self op ops)))
      (fun o ho => hops o (List.mem_cons_of_mem op ho))

theorem likes_invariant_amended_witness :
    likesNonneg (run seedState
      [Op.likeStoryOp "s1",
       Op.updateStoryOp "s1"
         { title := none, body := none, genre := none, likes := some 2 }]).db :=
  likes_invariant_amended seedState
    [Op.likeStoryOp "s1",
     Op.updateStoryOp "s1" { title := none, body := none, genre := none, likes := some 2 }]
    (by decide)
    (by
      intro op hop
      rcases List.mem_cons.mp hop with rfl | hop2
      · trivial
      · rcases List.mem_cons.mp hop2 with rfl | hop3
        · intro n hn
          injection hn with hv
          omega
        · cases hop3)

/-- C8 counterexample: when the activity log file exists but is empty,
`trim().split` yields one empty line, `JSON.parse` throws, and the recommend
request fails with a 500 instead of answering an array. -/
theorem recommend_never_fails_counterexample :
    recommend emptyLogState "u1" = .error .internal := rfl

/-- C8 amended: provided the activity log is absent or every one of its
trim-split lines parses as a record (which is the case for any file produced
by the record-activity handler alone), the recommend endpoint answers an
array of at most 3 stories for every user and every store state; an existing
log with an unparsable line — in particular an empty file — makes it throw. -/
theorem recommend_total_amended (st : SysState) (userId : String)
    (hlog : ∀ content, st.log = some content →
      ∀ line ∈ logLines content, (parseActivityLine line).isSome) :
    ∃ out, recommend st userId = .ok out ∧ out.length ≤ 3 := by
  cases hl : st.log with
  | none =>
    exact ⟨[], by simp [recommend, getUserHistory, hl], by simp⟩
  | some content =>
    obtain ⟨recs, hrecs⟩ := mapOption_isSome (hlog content hl)
    have hhist : getUserHistory st.log userId =
        .ok (recs.filter (fun a => a.userId == userId)) := by
      simp [getUserHistory, hl, hrecs]
    cases hlast : (recs.filter (fun a => a.userId == userId)).getLast? with
    | none => exact ⟨[], by simp [recommend, hhist, hlast], by simp⟩
    | some lastViewed =>
      cases hf : st.db.stories.find? (fun s => s.id == lastViewed.viewedStoryId) with
      | none => exact ⟨[], by simp [recommend, hhist, hlast, hf], by simp⟩
      | some viewedStory =>
        refine ⟨(st.db.stories.filter
            (fun s => s.genre == viewedStory.genre && s.id != viewedStory.id)).take 3,
          ?_, ?_⟩
        · simp [recommend, hhist, hlast, hf]
        · apply List.length_take_le

theorem recommend_total_amended_witness :
    ∃ out,
      recommend { db := seedDB "t0", disk := none,
                  log := some (serializeActivity
                    { userId := "u2", viewedStoryId := "s1", timestamp := "t2" } ++ "\n") }
          "u2" =
        .ok out ∧ out.length ≤ 3 :=
  recommend_total_amended _ "u2"
    (by
      intro content hc
      injection hc with hc2
      rw [← hc2]
      decide)

/-- C9 counterexample: story creation succeeds although `authorId` matches no
user in the collection — the handler checks only presence of the field, and
the response resolves the unknown author to the literal "Unknown". -/
theorem author_must_exist_counterexample :
    (∀ u ∈ noUsersState.db.users, u.id ≠ "ghost") ∧
    (createStory noUsersState "n1" "t1" (some "T") (some "B") (some "ghost") none).2 =
      .ok { story := { id := "n1", title := "T", body := "B", authorId := "ghost",
                       genre := "", likes := 0, createdAt := "t1" },
            authorName := "Unknown" } :=
  ⟨by decide, rfl⟩

/-- C9 amended: creation succeeds exactly when title, body and authorId are
present and non-empty, with no check that `authorId` references an existing
user; when it does not, the returned story's author name is "Unknown". -/
theorem createStory_author_unchecked (st : SysState) (newId now : String)
    (title body authorId genre : Option String) :
    apiOk (createStory st newId now title body authorId genre).2 =
      (present title && present body && present authorId) ∧
    (∀ es, (createStory st newId now title body authorId genre).2 = .ok es →
      (∀ u ∈ st.db.users, u.id ≠ authorId.getD "") → es.authorName = "Unknown") := by
  constructor
  · cases ht : present title <;> cases hb : present body <;> cases ha : present authorId <;>
      simp [createStory, apiOk, ht, hb, ha]
  · intro es hes hu
    have hfind : st.db.users.find? (fun u => u.id == authorId.getD "") = none := by
      rw [List.find?_eq_none]
      intro u humem
      simpa using hu u humem
    cases ht : present title <;> cases hb : present body <;> cases ha : present authorId <;>
      simp [createStory, ht, hb, ha] at hes
    rw [← hes]
    simp [enrichStory, authorNameFor, hfind]

theorem createStory_author_unchecked_witness :
    apiOk (createStory noUsersState "n1" "t1" (some "T") (some "B") (some "ghost") none).2 =
      (present (some "T") && present (some "B") && present (some "ghost")) ∧
    ({ story := { id := "n1", title := "T", body := "B", authorId := "ghost", genre := "",
                  likes := 0, createdAt := "t1" },
       authorName := "Unknown" } : EnrichedStory).authorName = "Unknown" :=
  ⟨(createStory_author_unchecked noUsersState "n1" "t1"
      (some "T") (some "B") (some "ghost") none).1,
   (createStory_author_unchecked noUsersState "n1" "t1"
      (some "T") (some "B") (some "ghost") none).2 _ rfl (by decide)⟩

/-- C10: comment creation checks story existence before field validation:
an absent story id yields NotFound whatever the other fields are, and a
ValidationError can only be produced when the story exists. -/
theorem createComment_check_order (st : SysState) (storyId newId now : String)
    (authorId text : Option String) :
    ((∀ s ∈ st.db.stories, s.id ≠ storyId) →
      createComment st storyId newId now authorId text = (st, .error .notFound)) ∧
    ((createComment st storyId newId now authorId text).2 = .error .validation →
      ∃ s ∈ st.db.stories, s.id = storyId) := by
  constructor
  · intro habs
    have hfind : st.db.stories.find? (fun s => s.id == storyId) = none := by
      rw [List.find?_eq_none]
      intro s hsm
      simpa using habs s hsm
    simp [createComment, hfind]
  · intro hval
    cases hf : st.db.stories.find? (fun s => s.id == storyId) with
    | none => simp [createComment, hf] at hval
    | some s =>
      exact ⟨s, List.mem_of_find?_eq_some hf, by simpa using List.find?_some hf⟩

theorem createComment_check_order_witness :
    createComment seedState "zz" "c9" "t9" none none = (seedState, .error .notFound) ∧
    ∃ s ∈ seedState.db.stories, s.id = "s1" :=
  ⟨(createComment_check_order seedState "zz" "c9" "t9" none none).1 (by decide),
   (createComment_check_order seedState "s1" "c9" "t9" none none).2 rfl⟩

end StorySky
